import Mathlib

/-!
Verification of the VoteSmartt event-lifecycle, ballot and tally logic.

The Python source stores naive Pacific datetimes and recomputes event status
on every read.  We embed datetimes as a `year` plus an ordinal position
within the year (`tod`), ordered lexicographically, which preserves the
total order used by every comparison in the source and exposes the `year`
field used by the creation-time sanity check.  Raw timestamp inputs are
either absent (`None` or the empty string), parseable, or malformed
(a non-empty string matching none of the accepted formats).  The ambient
`get_now_pacific()` call is passed in explicitly as a `now` argument.
-/

/-- Naive calendar datetime: a year and the ordinal of the instant within
that year.  The lexicographic order below coincides with Python's ordering
of naive `datetime` values. -/
structure DT where
  year : Nat
  tod : Nat
deriving DecidableEq, Repr

/-- Strict order on naive datetimes (Python `<`). -/
def DT.ltb (a b : DT) : Bool :=
  a.year < b.year || (a.year == b.year && a.tod < b.tod)

/-- Non-strict order on naive datetimes (Python `<=`). -/
def DT.leb (a b : DT) : Bool :=
  a.year < b.year || (a.year == b.year && a.tod ≤ b.tod)

theorem DT.ltb_iff (a b : DT) :
    DT.ltb a b = true ↔ a.year < b.year ∨ (a.year = b.year ∧ a.tod < b.tod) := by
  simp [DT.ltb, Bool.or_eq_true, Bool.and_eq_true, decide_eq_true_eq]

theorem DT.leb_iff (a b : DT) :
    DT.leb a b = true ↔ a.year < b.year ∨ (a.year = b.year ∧ a.tod ≤ b.tod) := by
  simp [DT.leb, Bool.or_eq_true, Bool.and_eq_true, decide_eq_true_eq]

theorem DT.leb_refl (a : DT) : DT.leb a a = true := by
  simp [DT.leb]

theorem DT.ltb_false_of_leb (a b : DT) (h : DT.leb a b = true) :
    DT.ltb b a = false := by
  rw [Bool.eq_false_iff]
  intro hc
  rw [DT.ltb_iff] at hc
  rw [DT.leb_iff] at h
  omega

/-- Raw timestamp input as received by `parse_datetime`: `None`/empty string,
a value parseable to a datetime, or a non-empty unparseable string. -/
inductive TimeInput where
  | absent : TimeInput
  | valid : DT → TimeInput
  | malformed : TimeInput
deriving DecidableEq, Repr

/-- Embeds `parse_datetime` (eventsModels.py): `None` and the empty string
give `None`; a parseable value gives the datetime; a string matching none
of the five accepted formats falls through every `strptime` attempt and
returns `None`. -/
def parse_datetime : TimeInput → Option DT
  | .absent => none
  | .valid t => some t
  | .malformed => none

/-- Event status as returned by `compute_status`. -/
inductive Status where
  | Waiting : Status
  | Open : Status
  | Closed : Status
  | Unknown : Status
deriving DecidableEq, Repr

/-- Embeds `compute_status` (eventsModels.py): parse both inputs, return
`Unknown` when both parse to `None`; with both present compare `now` with
start then end; with one present use the corresponding one-sided rule. -/
def compute_status (start_raw end_raw : TimeInput) (now : DT) : Status :=
  let start_dt := parse_datetime start_raw
  let end_dt := parse_datetime end_raw
  match start_dt, end_dt with
  | none, none => Status.Unknown
  | some sd, some ed =>
      if DT.ltb now sd then Status.Waiting
      else if DT.leb ed now then Status.Closed
      else Status.Open
  | some sd, none =>
      if DT.ltb now sd then Status.Waiting else Status.Open
  | none, some ed =>
      if DT.leb ed now then Status.Closed else Status.Open

/-- Injects a possibly-absent datetime into the raw-input type. -/
def ofOpt : Option DT → TimeInput
  | none => TimeInput.absent
  | some t => TimeInput.valid t

/-- Modelled from the spec: the status rules of §4.1 stated case by case on
possibly-absent start and end timestamps, in the spec's precedence order. -/
def statusSpec (s e : Option DT) (now : DT) : Status :=
  match s, e with
  | none, none => Status.Unknown
  | some sd, some ed =>
      if DT.ltb now sd then Status.Waiting
      else if DT.leb ed now then Status.Closed
      else Status.Open
  | some sd, none =>
      if DT.ltb now sd then Status.Waiting else Status.Open
  | none, some ed =>
      if DT.leb ed now then Status.Closed else Status.Open

/-- C1: for every pair of possibly-absent start/end timestamps and every
`now`, `compute_status` returns exactly the status prescribed by the spec's
case rules (Unknown iff both absent; with both present Waiting iff
`now < start`, else Closed iff `now >= end`, else Open; one-sided rules
otherwise), and at the exact boundary `now = end` of a well-formed interval
the result is Closed. -/
theorem compute_status_matches_spec (s e : Option DT) (now : DT) :
    compute_status (ofOpt s) (ofOpt e) now = statusSpec s e now ∧
    (∀ sd ed : DT, DT.leb sd ed = true →
      compute_status (ofOpt (some sd)) (ofOpt (some ed)) ed = Status.Closed) := by
  constructor
  · cases s <;> cases e <;> rfl
  · intro sd ed h
    simp [compute_status, ofOpt, parse_datetime, DT.ltb_false_of_leb sd ed h,
      DT.leb_refl]

/-- C1 witness: the boundary rule applied at a concrete instant. -/
theorem compute_status_matches_spec_witness :
    compute_status (ofOpt (some ⟨2025, 5⟩)) (ofOpt (some ⟨2025, 9⟩)) ⟨2025, 9⟩ =
      Status.Closed :=
  (compute_status_matches_spec (some ⟨2025, 5⟩) (some ⟨2025, 9⟩) ⟨2025, 9⟩).2
    ⟨2025, 5⟩ ⟨2025, 9⟩ (by decide)

/-- C6 counterexample: a malformed timestamp is treated exactly like an
absent one.  `parse_datetime` maps a malformed input to `None`, so
`compute_status` with a malformed start silently lands in the `Unknown`
branch (malformed start, absent end) or the `Open` branch (malformed
start, future end) instead of any validation error being reported. -/
theorem malformed_timestamp_treated_as_absent_cex :
    parse_datetime TimeInput.malformed = parse_datetime TimeInput.absent ∧
    compute_status TimeInput.malformed TimeInput.absent ⟨2025, 0⟩ = Status.Unknown ∧
    compute_status TimeInput.malformed (TimeInput.valid ⟨2025, 10⟩) ⟨2025, 5⟩ =
      Status.Open := by
  decide

/-- C6 amended: a malformed timestamp is never reported as an error by the
status computation; `parse_datetime` returns `None` for it, and
`compute_status` behaves on a malformed input exactly as on an absent one,
falling into the `Unknown`/`Open` branches. -/
theorem compute_status_malformed_as_absent (s e : TimeInput) (now : DT) :
    parse_datetime TimeInput.malformed = none ∧
    compute_status TimeInput.malformed e now =
      compute_status TimeInput.absent e now ∧
    compute_status s TimeInput.malformed now =
      compute_status s TimeInput.absent now :=
  ⟨rfl, rfl, rfl⟩

/-- Field-editability flags returned by `Events.get_editable_fields`. -/
structure EditableFields where
  title : Bool
  description : Bool
  start_time : Bool
  end_time : Bool
  status : Status
deriving DecidableEq, Repr

/-- Embeds `Events.get_editable_fields` (eventsModels.py): start from the
defaults (title and description editable, both times not), record the
computed status, then adjust per status: Waiting frees both times, Open
frees the end time, Closed forbids the title. -/
def get_editable_fields (start_raw end_raw : TimeInput) (now : DT) :
    EditableFields :=
  let status := compute_status start_raw end_raw now
  let editable : EditableFields :=
    { title := true, description := true, start_time := false,
      end_time := false, status := status }
  match status with
  | Status.Waiting => { editable with start_time := true, end_time := true }
  | Status.Open => { editable with end_time := true }
  | Status.Closed => { editable with title := false }
  | Status.Unknown => editable

/-- Modelled from the spec: the §4.1 editability policy table. -/
def editableFieldsSpec : Status → EditableFields
  | Status.Waiting => ⟨true, true, true, true, Status.Waiting⟩
  | Status.Open => ⟨true, true, false, true, Status.Open⟩
  | Status.Closed => ⟨false, true, false, false, Status.Closed⟩
  | Status.Unknown => ⟨true, true, false, false, Status.Unknown⟩

/-- C7: `get_editable_fields` returns exactly the spec's policy table for
the computed status, and in particular for a Closed event the start and
end times are never editable. -/
theorem get_editable_fields_policy (s e : TimeInput) (now : DT) :
    get_editable_fields s e now = editableFieldsSpec (compute_status s e now) ∧
    (get_editable_fields s e now).status = compute_status s e now ∧
    (compute_status s e now = Status.Closed →
      (get_editable_fields s e now).start_time = false ∧
      (get_editable_fields s e now).end_time = false) := by
  unfold get_editable_fields editableFieldsSpec
  cases compute_status s e now <;> simp

/-- C7 witness: a concrete closed event has both time fields locked. -/
theorem get_editable_fields_policy_witness :
    (get_editable_fields (TimeInput.valid ⟨2025, 0⟩) (TimeInput.valid ⟨2025, 1⟩)
        ⟨2025, 5⟩).start_time = false ∧
    (get_editable_fields (TimeInput.valid ⟨2025, 0⟩) (TimeInput.valid ⟨2025, 1⟩)
        ⟨2025, 5⟩).end_time = false :=
  (get_editable_fields_policy (TimeInput.valid ⟨2025, 0⟩)
    (TimeInput.valid ⟨2025, 1⟩) ⟨2025, 5⟩).2.2 (by decide)

/-- One row of `Vote.tallyVotesForEvent`: option id, text and vote count. -/
structure TallyRow where
  option_id : Nat
  option_text : String
  votes : Nat
deriving DecidableEq, Repr

/-- One row of `Result.calculate`: a tally row enriched with a percentage. -/
structure ResultRow where
  option_id : Nat
  option_text : String
  votes : Nat
  percentage : ℚ
deriving DecidableEq, Repr

/-- Python's `round` to the nearest integer with ties to even, on exact
rational values. -/
def pythonRound (q : ℚ) : ℤ :=
  let f := ⌊q⌋
  if q - f < 1 / 2 then f
  else if q - f > 1 / 2 then f + 1
  else if f % 2 = 0 then f else f + 1

/-- Python's `round(x, 1)`: round to one decimal place, ties to even. -/
def round1 (q : ℚ) : ℚ := (pythonRound (q * 10) : ℚ) / 10

/-- Embeds `Result.calculate` (resultsModel.py): `total` is the sum of the
vote counts; each row gains `percentage = round(votes / total * 100, 1)`
when `total` is non-zero and `0.0` otherwise. -/
def calculate (rows : List TallyRow) : List ResultRow :=
  let total : Nat := (rows.map (fun r => r.votes)).sum
  rows.map (fun r =>
    { option_id := r.option_id, option_text := r.option_text, votes := r.votes,
      percentage :=
        if total ≠ 0 then round1 ((r.votes : ℚ) / (total : ℚ) * 100) else 0 })

/-- Total vote count of a tally. -/
def totalVotes (rows : List TallyRow) : Nat :=
  (rows.map (fun r => r.votes)).sum

/-- C5: `calculate` keeps one output row per input row, assigns every row
`percentage = round(votes / total * 100, 1)` where `total` is the sum of
votes across all rows, and when `total = 0` every percentage is exactly
`0.0` (the division is guarded, never performed). -/
theorem calculate_spec (rows : List TallyRow) :
    (calculate rows).length = rows.length ∧
    (∀ r ∈ calculate rows,
      r.percentage =
        if totalVotes rows = 0 then 0
        else round1 ((r.votes : ℚ) / (totalVotes rows : ℚ) * 100)) ∧
    (totalVotes rows = 0 → ∀ r ∈ calculate rows, r.percentage = 0) := by
  refine ⟨by simp [calculate], ?_, ?_⟩
  · intro r hr
    obtain ⟨a, ha, rfl⟩ := List.mem_map.mp hr
    by_cases h : totalVotes rows = 0 <;>
      simp [totalVotes] at h <;> simp [h, totalVotes]
  · intro h r hr
    obtain ⟨a, ha, rfl⟩ := List.mem_map.mp hr
    simp [totalVotes] at h
    simp [h]

/-- C5 witness: the zero-total guard evaluated on a concrete one-row tally. -/
theorem calculate_spec_witness :
    (⟨1, "A", 0, 0⟩ : ResultRow).percentage = 0 :=
  (calculate_spec [⟨1, "A", 0⟩]).2.2 rfl ⟨1, "A", 0, 0⟩ (by simp [calculate])

/-- Embeds `Result.getWinners` (resultsModel.py): empty input gives no
winners; otherwise `max_votes` is the first row's count, a zero maximum
gives no winners, and all rows matching `max_votes` win. -/
def getWinners (rows : List ResultRow) : List ResultRow :=
  match rows with
  | [] => []
  | r :: _ =>
      if r.votes = 0 then []
      else rows.filter (fun x => x.votes == r.votes)

/-- Maximum vote count across rows, zero for an empty list. -/
def maxVotes (rows : List ResultRow) : Nat :=
  rows.foldr (fun r m => Nat.max r.votes m) 0

theorem maxVotes_le_of_forall (rows : List ResultRow) (bound : Nat)
    (h : ∀ x ∈ rows, x.votes ≤ bound) : maxVotes rows ≤ bound := by
  induction rows with
  | nil => simp [maxVotes]
  | cons r t ih =>
      simp only [maxVotes, List.foldr_cons]
      have hr := h r (List.mem_cons_self r t)
      have ht := ih (fun x hx => h x (List.mem_cons_of_mem r hx))
      simp only [maxVotes] at ht
      exact Nat.max_le.mpr ⟨hr, ht⟩

/-- C4: on rows sorted by votes descending (as `Vote.tallyVotesForEvent`
returns them), `getWinners` returns exactly the rows whose vote count
equals the maximum, provided the maximum is positive; an empty tally or an
all-zero tally yields no winners. -/
theorem getWinners_spec (rows : List ResultRow)
    (hsorted : rows.Pairwise (fun a b => b.votes ≤ a.votes)) :
    getWinners rows =
      if 0 < maxVotes rows then
        rows.filter (fun x => x.votes == maxVotes rows)
      else [] := by
  cases rows with
  | nil => rfl
  | cons r t =>
      have hle : ∀ x ∈ t, x.votes ≤ r.votes :=
        fun x hx => (List.pairwise_cons.mp hsorted).1 x hx
      have hmax : maxVotes (r :: t) = r.votes := by
        have hb := maxVotes_le_of_forall t r.votes hle
        simp only [maxVotes, List.foldr_cons]
        simp only [maxVotes] at hb
        exact Nat.max_eq_left hb
      rw [hmax]
      by_cases h0 : r.votes = 0
      · simp [getWinners, h0]
      · have : 0 < r.votes := Nat.pos_of_ne_zero h0
        simp [getWinners, h0, this]

/-- C4 witness: a concrete sorted tally with a two-way tie at the top. -/
theorem getWinners_spec_witness :
    getWinners [⟨1, "A", 2, (50 : ℚ)⟩, ⟨2, "B", 2, (50 : ℚ)⟩, ⟨3, "C", 0, 0⟩] =
      [⟨1, "A", 2, (50 : ℚ)⟩, ⟨2, "B", 2, (50 : ℚ)⟩] := by
  rw [getWinners_spec _ (by decide)]
  decide

/-- One row of the `option` table. -/
structure OptionRow where
  option_id : Nat
  option_event_id : Nat
  option_text : String
deriving DecidableEq, Repr

/-- The create/update/delete sets produced by the candidate-reconciliation
loop of `editEventPost`. -/
structure ReconcilePlan where
  toCreate : List String
  toUpdate : List (Nat × String)
  toDelete : List Nat
deriving DecidableEq, Repr

/-- One iteration of the candidate loop in `editEventPost`
(eventsController.py): the accumulator holds the ids recognised so far,
the texts to create and the pairs to update.  A pair carrying an id found
among the existing options records that id and updates only when the text
changed; any other pair is created. -/
def reconcileStep (existing : List OptionRow)
    (acc : List Nat × List String × List (Nat × String))
    (p : Option Nat × String) :
    List Nat × List String × List (Nat × String) :=
  match p.1 with
  | some i =>
      if (existing.map (fun o => o.option_id)).contains i then
        match existing.find? (fun o => o.option_id == i) with
        | some o =>
            if o.option_text ≠ p.2 then
              (acc.1 ++ [i], acc.2.1, acc.2.2 ++ [(i, p.2)])
            else (acc.1 ++ [i], acc.2.1, acc.2.2)
        | none => (acc.1 ++ [i], acc.2.1, acc.2.2)
      else (acc.1, acc.2.1 ++ [p.2], acc.2.2)
  | none => (acc.1, acc.2.1 ++ [p.2], acc.2.2)

/-- Embeds the candidate-reconciliation section of `editEventPost`
(eventsController.py): run the loop over the submitted pairs, then delete
every existing option whose id was not recognised during the loop. -/
def reconcile (existing : List OptionRow)
    (submitted : List (Option Nat × String)) : ReconcilePlan :=
  let step := submitted.foldl (reconcileStep existing) ([], [], [])
  { toCreate := step.2.1
    toUpdate := step.2.2
    toDelete :=
      (existing.filter (fun o => ! step.1.contains o.option_id)).map
        (fun o => o.option_id) }

/-- True when a submitted pair carries an id present among the existing
options. -/
def carriesKnownId (existing : List OptionRow) (p : Option Nat × String) :
    Bool :=
  match p.1 with
  | some i => (existing.map (fun o => o.option_id)).contains i
  | none => false

/-- The update entry a submitted pair contributes: its id and new text when
the id is known and the text changed, nothing otherwise. -/
def updateOf (existing : List OptionRow) (p : Option Nat × String) :
    Option (Nat × String) :=
  match p.1 with
  | some i =>
      match existing.find? (fun o => o.option_id == i) with
      | some o => if o.option_text ≠ p.2 then some (i, p.2) else none
      | none => none
  | none => none

/-- The submitted ids recognised as existing, in submission order. -/
def knownIds (existing : List OptionRow)
    (submitted : List (Option Nat × String)) : List Nat :=
  submitted.filterMap (fun p =>
    match p.1 with
    | some i =>
        if (existing.map (fun o => o.option_id)).contains i then some i
        else none
    | none => none)

/-- Modelled from the spec: a submitted pair with a known id is updated only
if its text changed, a pair without a known id is created, and existing ids
absent from the submission are deleted. -/
def reconcileSpec (existing : List OptionRow)
    (submitted : List (Option Nat × String)) : ReconcilePlan :=
  { toCreate :=
      (submitted.filter (fun p => ! carriesKnownId existing p)).map
        (fun p => p.2)
    toUpdate := submitted.filterMap (updateOf existing)
    toDelete :=
      (existing.filter (fun o =>
          ! (submitted.filterMap (fun p => p.1)).contains o.option_id)).map
        (fun o => o.option_id) }

theorem reconcile_foldl (existing : List OptionRow)
    (submitted : List (Option Nat × String))
    (acc : List Nat × List String × List (Nat × String)) :
    submitted.foldl (reconcileStep existing) acc =
      (acc.1 ++ knownIds existing submitted,
       acc.2.1 ++
         (submitted.filter (fun p => ! carriesKnownId existing p)).map
           (fun p => p.2),
       acc.2.2 ++ submitted.filterMap (updateOf existing)) := by
  induction submitted generalizing acc with
  | nil => simp [knownIds]
  | cons p rest ih =>
      rw [List.foldl_cons, ih]
      obtain ⟨oid, txt⟩ := p
      cases oid with
      | none =>
          simp [reconcileStep, knownIds, carriesKnownId, updateOf]
      | some i =>
          by_cases hc : ∃ a ∈ existing, a.option_id = i
          · cases hf : existing.find? (fun o => o.option_id == i) with
            | none =>
                simp [reconcileStep, knownIds, carriesKnownId, updateOf,
                  hc, hf]
            | some o =>
                by_cases ht : o.option_text = txt
                · simp [reconcileStep, knownIds, carriesKnownId, updateOf,
                    hc, hf, ht]
                · simp [reconcileStep, knownIds, carriesKnownId, updateOf,
                    hc, hf, ht]
          · have hf : existing.find? (fun o => o.option_id == i) = none := by
              rw [List.find?_eq_none]
              intro a ha
              simpa using fun h => hc ⟨a, ha, h⟩
            simp [reconcileStep, knownIds, carriesKnownId, updateOf, hc, hf]

theorem find_self_of_nodup (existing : List OptionRow) (o : OptionRow)
    (hids : (existing.map (fun x => x.option_id)).Nodup)
    (ho : o ∈ existing) :
    existing.find? (fun x => x.option_id == o.option_id) = some o := by
  induction existing with
  | nil => cases ho
  | cons x rest ih =>
      rw [List.map_cons, List.nodup_cons] at hids
      rcases List.mem_cons.mp ho with rfl | hmem
      · exact List.find?_cons_of_pos rest (by simp)
      · by_cases hx : x.option_id = o.option_id
        · exact absurd (hx ▸ List.mem_map_of_mem (fun y => y.option_id) hmem)
            hids.1
        · rw [List.find?_cons_of_neg rest (by simpa using hx)]
          exact ih hids.2 hmem

theorem mem_knownIds_iff (existing : List OptionRow)
    (submitted : List (Option Nat × String)) (i : Nat)
    (hi : ∃ a ∈ existing, a.option_id = i) :
    i ∈ knownIds existing submitted ↔
      i ∈ submitted.filterMap (fun p => p.1) := by
  unfold knownIds
  constructor
  · intro h
    obtain ⟨p, hp, he⟩ := List.mem_filterMap.mp h
    obtain ⟨oid, txt⟩ := p
    refine List.mem_filterMap.mpr ⟨(oid, txt), hp, ?_⟩
    cases oid with
    | some j =>
        have he2 : (if (existing.map (fun o => o.option_id)).contains j = true
            then some j else none) = some i := he
        by_cases hcj : (existing.map (fun o => o.option_id)).contains j = true
        · rw [if_pos hcj] at he2
          exact he2
        · rw [if_neg hcj] at he2
          cases he2
    | none => exact Option.noConfusion he
  · intro h
    obtain ⟨p, hp, he⟩ := List.mem_filterMap.mp h
    refine List.mem_filterMap.mpr ⟨p, hp, ?_⟩
    rw [he]
    show (if (existing.map (fun o => o.option_id)).contains i = true
        then some i else none) = some i
    rw [if_pos (by simpa using hi)]

/-- C9: the reconciliation loop computes exactly the spec's create, update
and delete sets, and on a submission identical to the existing option set
(same ids, same texts, ids unique as the primary key guarantees) all three
sets are empty: nothing is inserted, modified or removed. -/
theorem reconcile_matches_spec_and_roundtrip (existing : List OptionRow)
    (submitted : List (Option Nat × String))
    (hids : (existing.map (fun o => o.option_id)).Nodup) :
    reconcile existing submitted = reconcileSpec existing submitted ∧
    reconcile existing
        (existing.map (fun o => (some o.option_id, o.option_text))) =
      ⟨[], [], []⟩ := by
  constructor
  · unfold reconcile reconcileSpec
    rw [reconcile_foldl]
    simp only [List.nil_append, ReconcilePlan.mk.injEq]
    refine ⟨trivial, trivial, ?_⟩
    refine congrArg _ (List.filter_congr fun o ho => ?_)
    have hmem := mem_knownIds_iff existing submitted o.option_id ⟨o, ho, rfl⟩
    by_cases h : o.option_id ∈ submitted.filterMap (fun p => p.1)
    · have h1 : o.option_id ∈ knownIds existing submitted := hmem.mpr h
      simp [h, h1]
    · have h1 : o.option_id ∉ knownIds existing submitted :=
        fun hx => h (hmem.mp hx)
      simp [h, h1]
  · have hsub : ∀ o ∈ existing, o.option_id ∈
        knownIds existing
          (existing.map (fun x => (some x.option_id, x.option_text))) := by
      intro o ho
      unfold knownIds
      refine List.mem_filterMap.mpr
        ⟨(some o.option_id, o.option_text), List.mem_map_of_mem _ ho, ?_⟩
      have hc : (existing.map (fun x => x.option_id)).contains o.option_id
          = true := by
        simpa using ⟨o, ho, rfl⟩
      show (if (existing.map (fun x => x.option_id)).contains o.option_id
          = true then some o.option_id else none) = some o.option_id
      rw [if_pos hc]
    unfold reconcile
    rw [reconcile_foldl]
    simp only [List.nil_append, ReconcilePlan.mk.injEq]
    refine ⟨?_, ?_, ?_⟩
    · rw [List.map_eq_nil_iff, List.filter_eq_nil_iff]
      intro p hp
      obtain ⟨o, ho, rfl⟩ := List.mem_map.mp hp
      simp [carriesKnownId]
      exact ⟨o, ho, rfl⟩
    · rw [List.filterMap_eq_nil_iff]
      intro p hp
      obtain ⟨o, ho, rfl⟩ := List.mem_map.mp hp
      show (match List.find? (fun x => x.option_id == o.option_id) existing
          with
        | some x =>
            if x.option_text ≠ o.option_text then
              some (o.option_id, o.option_text)
            else none
        | none => none) = none
      rw [find_self_of_nodup existing o hids ho]
      simp
    · rw [List.map_eq_nil_iff, List.filter_eq_nil_iff]
      intro o ho
      simp [hsub o ho]

/-- C9 witness: a concrete two-option set resubmitted unchanged produces
empty create, update and delete sets. -/
theorem reconcile_matches_spec_and_roundtrip_witness :
    reconcile [⟨1, 7, "A"⟩, ⟨2, 7, "B"⟩]
        (List.map (fun o => (some o.option_id, o.option_text))
          ([⟨1, 7, "A"⟩, ⟨2, 7, "B"⟩] : List OptionRow)) = ⟨[], [], []⟩ :=
  (reconcile_matches_spec_and_roundtrip [⟨1, 7, "A"⟩, ⟨2, 7, "B"⟩] []
    (by decide)).2

/-- One row of the `vote` table. -/
structure VoteRow where
  vote_id : Nat
  voted_at : DT
  vote_user_id : Nat
  vote_option_id : Nat
deriving DecidableEq, Repr

/-- One row of the `event` table (fields the voting flow reads). -/
structure EventRow where
  event_id : Nat
  title : String
  description : String
  start_time : TimeInput
  end_time : TimeInput
  created_byFK : Nat
deriving DecidableEq, Repr

/-- The authenticated caller: id and admin flag. -/
structure UserRow where
  user_id : Nat
  isAdmin : Bool
deriving DecidableEq, Repr

/-- The shared relational store: the `option` and `vote` tables plus the
auto-increment counter for vote ids. -/
structure DB where
  options : List OptionRow
  votes : List VoteRow
  next_vote_id : Nat
deriving DecidableEq, Repr

/-- The JOIN condition of `Vote.getByUserAndEvent` / `changeVote` /
`deleteVote` (voteModels.py): the vote's option belongs to the event. -/
def voteMatchesEvent (db : DB) (v : VoteRow) (event_id : Nat) : Bool :=
  db.options.any (fun o =>
    o.option_id == v.vote_option_id && o.option_event_id == event_id)

/-- The WHERE clause shared by `getByUserAndEvent`, `changeVote` and
`deleteVote`: same user, vote joined to the given event. -/
def ballotPred (db : DB) (user_id event_id : Nat) (v : VoteRow) : Bool :=
  v.vote_user_id == user_id && voteMatchesEvent db v event_id

/-- Embeds `Vote.getByUserAndEvent` (voteModels.py): first matching row in
table order (`LIMIT 1`). -/
def getByUserAndEvent (db : DB) (user_id event_id : Nat) : Option VoteRow :=
  (db.votes.filter (ballotPred db user_id event_id)).head?

/-- Embeds `Vote.castVote` (voteModels.py): INSERT a fresh row with
`voted_at = NOW()`. -/
def castVote (db : DB) (vote_user_id vote_option_id : Nat) (now : DT) : DB :=
  { db with
    votes := db.votes ++
      [⟨db.next_vote_id, now, vote_user_id, vote_option_id⟩],
    next_vote_id := db.next_vote_id + 1 }

/-- Embeds `Vote.changeVote` (voteModels.py): UPDATE every row of the user
joined to the event, setting the new option and refreshing `voted_at`. -/
def changeVote (db : DB) (user_id event_id new_option_id : Nat) (now : DT) :
    DB :=
  { db with
    votes := db.votes.map (fun v =>
      if ballotPred db user_id event_id v then
        { v with vote_option_id := new_option_id, voted_at := now }
      else v) }

/-- Embeds the option-validity check of `cast_vote` (voteController.py):
the chosen option id is among `Option.getByEventId` for the event. -/
def optionBelongs (db : DB) (event_id option_id : Nat) : Bool :=
  ((db.options.filter (fun o => o.option_event_id == event_id)).map
    (fun o => o.option_id)).contains option_id

/-- Number of ballots the user holds in the event. -/
def countBallots (db : DB) (user_id event_id : Nat) : Nat :=
  (db.votes.filter (ballotPred db user_id event_id)).length

/-- Outcome of a cast/change request, spec taxonomy: role violations are
`Forbidden`, a non-open event is `EventNotOpen`, a foreign option is
`InvalidOption`; success is `Created` or `Updated`. -/
inductive CastOutcome where
  | Forbidden : CastOutcome
  | EventNotOpen : CastOutcome
  | InvalidOption : CastOutcome
  | Created : CastOutcome
  | Updated : CastOutcome
deriving DecidableEq, Repr

/-- Embeds the `cast_vote` route (voteController.py) after authentication,
in the source's check order: admin blocked first, then the event must be
Open, then the creator is blocked, then the option must belong to the
event; finally update when a ballot exists, else insert. -/
def cast_vote (db : DB) (user : UserRow) (event : EventRow)
    (option_id : Nat) (now : DT) : CastOutcome × DB :=
  if user.isAdmin then (CastOutcome.Forbidden, db)
  else if compute_status event.start_time event.end_time now ≠ Status.Open
    then (CastOutcome.EventNotOpen, db)
  else if event.created_byFK == user.user_id then (CastOutcome.Forbidden, db)
  else if ! optionBelongs db event.event_id option_id then
    (CastOutcome.InvalidOption, db)
  else
    match getByUserAndEvent db user.user_id event.event_id with
    | some _ =>
        (CastOutcome.Updated,
          changeVote db user.user_id event.event_id option_id now)
    | none => (CastOutcome.Created, castVote db user.user_id option_id now)

/-- C3 counterexample: the creator of a Closed event gets `EventNotOpen`,
not `Forbidden` — the source checks the event status before the creator
role, while the claim puts the `Forbidden` rule first. -/
theorem cast_vote_creator_closed_cex :
    cast_vote ⟨[⟨10, 1, "A"⟩], [], 0⟩ ⟨5, false⟩
        ⟨1, "T", "", TimeInput.valid ⟨2025, 0⟩, TimeInput.valid ⟨2025, 1⟩, 5⟩
        10 ⟨2025, 5⟩ =
      (CastOutcome.EventNotOpen, ⟨[⟨10, 1, "A"⟩], [], 0⟩) ∧
    CastOutcome.EventNotOpen ≠ CastOutcome.Forbidden := by
  constructor
  · rfl
  · decide

/-- C3 amended: `cast_vote` checks its preconditions in the source's order
— an admin caller gets `Forbidden`; otherwise a non-Open event gets
`EventNotOpen`; otherwise the creator gets `Forbidden`; otherwise an option
not belonging to the event gets `InvalidOption`; every failure leaves the
store untouched, and only when no precondition is violated is a ballot
written, `Created` on a first cast and `Updated` when one exists. -/
theorem cast_vote_guards (db : DB) (user : UserRow) (event : EventRow)
    (option_id : Nat) (now : DT) :
    (user.isAdmin = true →
      cast_vote db user event option_id now = (CastOutcome.Forbidden, db)) ∧
    (user.isAdmin = false →
      compute_status event.start_time event.end_time now ≠ Status.Open →
      cast_vote db user event option_id now =
        (CastOutcome.EventNotOpen, db)) ∧
    (user.isAdmin = false →
      compute_status event.start_time event.end_time now = Status.Open →
      event.created_byFK = user.user_id →
      cast_vote db user event option_id now = (CastOutcome.Forbidden, db)) ∧
    (user.isAdmin = false →
      compute_status event.start_time event.end_time now = Status.Open →
      event.created_byFK ≠ user.user_id →
      optionBelongs db event.event_id option_id = false →
      cast_vote db user event option_id now =
        (CastOutcome.InvalidOption, db)) ∧
    (user.isAdmin = false →
      compute_status event.start_time event.end_time now = Status.Open →
      event.created_byFK ≠ user.user_id →
      optionBelongs db event.event_id option_id = true →
      (cast_vote db user event option_id now).1 =
        if (getByUserAndEvent db user.user_id event.event_id).isSome then
          CastOutcome.Updated
        else CastOutcome.Created) := by
  refine ⟨?_, ?_, ?_, ?_, ?_⟩
  · intro h
    simp [cast_vote, h]
  · intro h hst
    simp [cast_vote, h, hst]
  · intro h hst hcr
    simp [cast_vote, h, hst, hcr]
  · intro h hst hcr hopt
    simp [cast_vote, h, hst, hcr, hopt]
  · intro h hst hcr hopt
    cases hlook : getByUserAndEvent db user.user_id event.event_id with
    | some v => simp [cast_vote, h, hst, hcr, hopt, hlook]
    | none => simp [cast_vote, h, hst, hcr, hopt, hlook]

/-- C3 witness: an admin caller on an open event is rejected `Forbidden`
with the store unchanged. -/
theorem cast_vote_guards_witness :
    cast_vote ⟨[⟨10, 1, "A"⟩], [], 0⟩ ⟨5, true⟩
        ⟨1, "T", "", TimeInput.valid ⟨2025, 0⟩, TimeInput.valid ⟨2025, 9⟩, 7⟩
        10 ⟨2025, 5⟩ =
      (CastOutcome.Forbidden, ⟨[⟨10, 1, "A"⟩], [], 0⟩) :=
  (cast_vote_guards ⟨[⟨10, 1, "A"⟩], [], 0⟩ ⟨5, true⟩
    ⟨1, "T", "", TimeInput.valid ⟨2025, 0⟩, TimeInput.valid ⟨2025, 9⟩, 7⟩
    10 ⟨2025, 5⟩).1 rfl

theorem voteMatches_of_belongs (db : DB) (event_id oid : Nat)
    (h : optionBelongs db event_id oid = true) (v : VoteRow)
    (hv : v.vote_option_id = oid) :
    voteMatchesEvent db v event_id = true := by
  unfold optionBelongs at h
  unfold voteMatchesEvent
  simp at h ⊢
  obtain ⟨o, ⟨ho, he⟩, hid⟩ := h
  exact ⟨o, ho, hid.trans hv.symm, he⟩

/-- C2: from a store holding no ballot for the (user, event) pair, a
successful cast creates one ballot whose option is the one just cast and
the pair's ballot count becomes 1; a second sequential cast with a
different option reports `Updated`, updates that ballot in place to the
new option, and the count stays 1. -/
theorem cast_then_change_single_ballot (db : DB) (user : UserRow)
    (event : EventRow) (o1 o2 : Nat) (now now2 : DT)
    (hadmin : user.isAdmin = false)
    (hcreator : event.created_byFK ≠ user.user_id)
    (hopen1 : compute_status event.start_time event.end_time now =
      Status.Open)
    (hopen2 : compute_status event.start_time event.end_time now2 =
      Status.Open)
    (hb1 : optionBelongs db event.event_id o1 = true)
    (hb2 : optionBelongs db event.event_id o2 = true)
    (hdiff : o1 ≠ o2)
    (hclean : countBallots db user.user_id event.event_id = 0) :
    (cast_vote db user event o1 now).1 = CastOutcome.Created ∧
    (getByUserAndEvent (cast_vote db user event o1 now).2 user.user_id
        event.event_id).map (fun v => v.vote_option_id) = some o1 ∧
    countBallots (cast_vote db user event o1 now).2 user.user_id
      event.event_id = 1 ∧
    (cast_vote (cast_vote db user event o1 now).2 user event o2 now2).1 =
      CastOutcome.Updated ∧
    (getByUserAndEvent
        (cast_vote (cast_vote db user event o1 now).2 user event o2 now2).2
        user.user_id event.event_id).map (fun v => v.vote_option_id) =
      some o2 ∧
    countBallots
      (cast_vote (cast_vote db user event o1 now).2 user event o2 now2).2
      user.user_id event.event_id = 1 := by
  have hfilter0 : db.votes.filter
      (ballotPred db user.user_id event.event_id) = [] := by
    unfold countBallots at hclean
    exact List.length_eq_zero.mp hclean
  have hnotmem : ∀ v ∈ db.votes,
      ballotPred db user.user_id event.event_id v = false := by
    intro v hv
    exact Bool.eq_false_iff.mpr (List.filter_eq_nil_iff.mp hfilter0 v hv)
  have hlook0 : getByUserAndEvent db user.user_id event.event_id = none := by
    unfold getByUserAndEvent
    rw [hfilter0]
    rfl
  have hc1 : cast_vote db user event o1 now =
      (CastOutcome.Created, castVote db user.user_id o1 now) := by
    simp [cast_vote, hadmin, hopen1, hcreator, hb1, hlook0]
  have hpred1 : ballotPred db user.user_id event.event_id
      ⟨db.next_vote_id, now, user.user_id, o1⟩ = true := by
    unfold ballotPred
    simp [voteMatches_of_belongs db event.event_id o1 hb1
      ⟨db.next_vote_id, now, user.user_id, o1⟩ rfl]
  have hfilter1 : ((castVote db user.user_id o1 now).votes.filter
      (ballotPred (castVote db user.user_id o1 now) user.user_id
        event.event_id)) =
      [⟨db.next_vote_id, now, user.user_id, o1⟩] := by
    show ((db.votes ++
        [(⟨db.next_vote_id, now, user.user_id, o1⟩ : VoteRow)]).filter
      (ballotPred db user.user_id event.event_id)) =
      [⟨db.next_vote_id, now, user.user_id, o1⟩]
    rw [List.filter_append, hfilter0, List.nil_append, List.filter_cons,
      if_pos hpred1]
    rfl
  have hlook1 : getByUserAndEvent (castVote db user.user_id o1 now)
      user.user_id event.event_id =
      some ⟨db.next_vote_id, now, user.user_id, o1⟩ := by
    unfold getByUserAndEvent
    rw [hfilter1]
    rfl
  have hb2x : optionBelongs (castVote db user.user_id o1 now)
      event.event_id o2 = true := hb2
  have hc2 : cast_vote (castVote db user.user_id o1 now) user event o2
      now2 =
      (CastOutcome.Updated,
        changeVote (castVote db user.user_id o1 now) user.user_id
          event.event_id o2 now2) := by
    simp [cast_vote, hadmin, hopen2, hcreator, hb2x, hlook1]
  have hvotes2 : (changeVote (castVote db user.user_id o1 now) user.user_id
      event.event_id o2 now2).votes =
      db.votes ++ [⟨db.next_vote_id, now2, user.user_id, o2⟩] := by
    show (db.votes ++
        [(⟨db.next_vote_id, now, user.user_id, o1⟩ : VoteRow)]).map
        (fun v => if ballotPred db user.user_id event.event_id v then
          { v with vote_option_id := o2, voted_at := now2 } else v) =
      db.votes ++ [⟨db.next_vote_id, now2, user.user_id, o2⟩]
    rw [List.map_append]
    congr 1
    · have hfix : ∀ v ∈ db.votes,
          (if ballotPred db user.user_id event.event_id v then
            { v with vote_option_id := o2, voted_at := now2 } else v) = v := by
        intro v hv
        rw [hnotmem v hv]
        rfl
      rw [List.map_congr_left hfix]
      simp
    · simp only [List.map_cons, List.map_nil]
      rw [if_pos hpred1]
  have hpred2 : ballotPred db user.user_id event.event_id
      ⟨db.next_vote_id, now2, user.user_id, o2⟩ = true := by
    unfold ballotPred
    simp [voteMatches_of_belongs db event.event_id o2 hb2
      ⟨db.next_vote_id, now2, user.user_id, o2⟩ rfl]
  have hfilter2 : ((changeVote (castVote db user.user_id o1 now)
      user.user_id event.event_id o2 now2).votes.filter
      (ballotPred (changeVote (castVote db user.user_id o1 now)
        user.user_id event.event_id o2 now2) user.user_id event.event_id)) =
      [⟨db.next_vote_id, now2, user.user_id, o2⟩] := by
    show ((changeVote (castVote db user.user_id o1 now) user.user_id
        event.event_id o2 now2).votes.filter
        (ballotPred db user.user_id event.event_id)) = _
    rw [hvotes2, List.filter_append, hfilter0, List.nil_append,
      List.filter_cons, if_pos hpred2]
    rfl
  have hlook2 : getByUserAndEvent (changeVote (castVote db user.user_id o1
      now) user.user_id event.event_id o2 now2) user.user_id
      event.event_id =
      some ⟨db.next_vote_id, now2, user.user_id, o2⟩ := by
    unfold getByUserAndEvent
    rw [hfilter2]
    rfl
  refine ⟨?_, ?_, ?_, ?_, ?_, ?_⟩
  · rw [hc1]
  · rw [hc1]
    show (getByUserAndEvent (castVote db user.user_id o1 now) user.user_id
      event.event_id).map (fun v => v.vote_option_id) = some o1
    rw [hlook1]
    rfl
  · rw [hc1]
    show countBallots (castVote db user.user_id o1 now) user.user_id
      event.event_id = 1
    unfold countBallots
    rw [hfilter1]
    rfl
  · rw [hc1]
    show (cast_vote (castVote db user.user_id o1 now) user event o2
      now2).1 = CastOutcome.Updated
    rw [hc2]
  · rw [hc1]
    show (getByUserAndEvent (cast_vote (castVote db user.user_id o1 now)
      user event o2 now2).2 user.user_id event.event_id).map
      (fun v => v.vote_option_id) = some o2
    rw [hc2]
    show (getByUserAndEvent (changeVote (castVote db user.user_id o1 now)
      user.user_id event.event_id o2 now2) user.user_id
      event.event_id).map (fun v => v.vote_option_id) = some o2
    rw [hlook2]
    rfl
  · rw [hc1]
    show countBallots (cast_vote (castVote db user.user_id o1 now) user
      event o2 now2).2 user.user_id event.event_id = 1
    rw [hc2]
    show countBallots (changeVote (castVote db user.user_id o1 now)
      user.user_id event.event_id o2 now2) user.user_id event.event_id = 1
    unfold countBallots
    rw [hfilter2]
    rfl

/-- C2 witness: a concrete user casts for option 10 then changes to option
11; exactly one ballot remains. -/
theorem cast_then_change_single_ballot_witness :
    countBallots
      (cast_vote (cast_vote ⟨[⟨10, 1, "A"⟩, ⟨11, 1, "B"⟩], [], 0⟩ ⟨5, false⟩
          ⟨1, "T", "", TimeInput.valid ⟨2025, 0⟩, TimeInput.valid ⟨2025, 9⟩,
            7⟩ 10 ⟨2025, 3⟩).2 ⟨5, false⟩
        ⟨1, "T", "", TimeInput.valid ⟨2025, 0⟩, TimeInput.valid ⟨2025, 9⟩, 7⟩
        11 ⟨2025, 4⟩).2 5 1 = 1 :=
  (cast_then_change_single_ballot ⟨[⟨10, 1, "A"⟩, ⟨11, 1, "B"⟩], [], 0⟩
    ⟨5, false⟩
    ⟨1, "T", "", TimeInput.valid ⟨2025, 0⟩, TimeInput.valid ⟨2025, 9⟩, 7⟩
    10 11 ⟨2025, 3⟩ ⟨2025, 4⟩ rfl (by decide) rfl rfl (by decide) (by decide)
    (by decide) rfl).2.2.2.2.2

/-- Python whitespace as stripped by `str.strip()`. -/
def isPySpace (c : Char) : Bool :=
  c == ' ' || c == '\t' || c == '\n' || c == '\r'

/-- Python's `str.strip()`: drop leading and trailing whitespace. -/
def strip (s : String) : String :=
  String.mk (((s.data.dropWhile isPySpace).reverse.dropWhile
    isPySpace).reverse)

/-- Embeds `validate_event_title` (validators.py). -/
def validate_event_title (title : String) : Option String :=
  if title = "" then some "Please enter an event name"
  else if (strip title).length = 0 then some "Please enter an event name"
  else if (strip title).length > 45 then
    some "Event name is too long (maximum 45 characters)"
  else none

/-- Embeds `validate_event_description` (validators.py): empty is fine
(optional field), over 255 characters after stripping is an error. -/
def validate_event_description (description : String) : Option String :=
  if description = "" then none
  else if (strip description).length > 255 then
    some "Event description is too long (maximum 255 characters)"
  else none

/-- The field values `editEventPost` writes back via `Events.editEvent`. -/
structure EventUpdate where
  title : String
  description : String
  start_time : TimeInput
  end_time : TimeInput
deriving DecidableEq, Repr

/-- Embeds the validation and coercion logic of `editEventPost` below the
editable-fields lookup (eventsController.py lines 694-775): only editable
fields are validated, non-editable fields are coerced back to the stored
values, the temporal rules depend on the computed status, and for a Closed
event title and both times are forced back to the originals before the
update is issued.  In the source this entire block is dead code: the
lookup on line 694 spells the method `getEditableFields`, which the Events
class does not define (see `editEventPostRoute` below), so the route
raises before reaching it.  The editable-fields dictionary this block
reads is supplied here by `get_editable_fields`, the method the lookup was
meant to call. -/
def editEventPost (event : EventRow) (ftitle fdescription : String)
    (fstart fend : TimeInput) (now : DT) : Except String EventUpdate :=
  let editable := get_editable_fields event.start_time event.end_time now
  let status := editable.status
  let err0 : Option String :=
    if editable.title then validate_event_title ftitle else none
  let title0 : String := if editable.title then ftitle else event.title
  let err1 : Option String :=
    if err0 = none ∧ editable.description ∧ fdescription ≠ "" then
      validate_event_description fdescription
    else err0
  let description0 : String :=
    if editable.description then fdescription else event.description
  let nstart0 : TimeInput :=
    if editable.start_time then fstart else event.start_time
  let nend0 : TimeInput :=
    if editable.end_time then fend else event.end_time
  let start_dt := parse_datetime nstart0
  let end_dt := parse_datetime nend0
  let err2 : Option String :=
    if err1 = none ∧ editable.start_time ∧ start_dt = none then
      some "Please select a start date"
    else err1
  let err3 : Option String :=
    if err2 = none ∧ editable.end_time ∧ end_dt = none then
      some "Please select an end date"
    else err2
  let err4 : Option String :=
    match err3, start_dt, end_dt with
    | none, some sd, some ed =>
        if DT.leb ed sd then
          some "End time cannot be before or equal to start time"
        else none
    | e, _, _ => e
  let stres : Option String × String × TimeInput × TimeInput :=
    if err4 = none then
      if status = Status.Waiting then
        match start_dt with
        | some sd =>
            if DT.ltb sd now then
              (some "Start time cannot be in the past", title0, nstart0,
                nend0)
            else (none, title0, nstart0, nend0)
        | none => (none, title0, nstart0, nend0)
      else if status = Status.Open then
        match parse_datetime event.start_time, end_dt with
        | some os, some ed =>
            if editable.end_time then
              if DT.leb ed os then
                (some "End time must be after start time", title0, nstart0,
                  nend0)
              else if DT.leb ed now then
                (some "End time must be in the future for an open event",
                  title0, nstart0, nend0)
              else (none, title0, nstart0, nend0)
            else (none, title0, nstart0, nend0)
        | none, some ed =>
            if editable.end_time then
              if DT.leb ed now then
                (some "End time must be in the future for an open event",
                  title0, nstart0, nend0)
              else (none, title0, nstart0, nend0)
            else (none, title0, nstart0, nend0)
        | _, none => (none, title0, nstart0, nend0)
      else if status = Status.Closed then
        (none, event.title, event.start_time, event.end_time)
      else (none, title0, nstart0, nend0)
    else (err4, title0, nstart0, nend0)
  match stres.1 with
  | some m => Except.error m
  | none =>
      Except.ok
        ⟨stres.2.1,
          if editable.description then description0 else event.description,
          stres.2.2.1, stres.2.2.2⟩

/-- The dead-code continuation of the edit route would implement the
Closed-event frame rule: when the computed status is Closed, any
successful edit submission writes back the original title, start and end
times (only the description can differ), and the outcome does not depend
at all on the submitted title, start or end values — they would be
silently coerced, never rejected.  The route never reaches this logic;
see `editEventPostRoute`. -/
theorem editEventPost_closed_frame (event : EventRow)
    (ftitle ftitle2 fdescription : String)
    (fstart fend fstart2 fend2 : TimeInput) (now : DT)
    (hclosed : compute_status event.start_time event.end_time now =
      Status.Closed) :
    (∀ u, editEventPost event ftitle fdescription fstart fend now =
        Except.ok u →
      u.title = event.title ∧ u.start_time = event.start_time ∧
        u.end_time = event.end_time) ∧
    editEventPost event ftitle fdescription fstart fend now =
      editEventPost event ftitle2 fdescription fstart2 fend2 now := by
  have hedit : get_editable_fields event.start_time event.end_time now =
      ⟨false, true, false, false, Status.Closed⟩ := by
    simp [get_editable_fields, hclosed]
  constructor
  · intro u hok
    unfold editEventPost at hok
    rw [hedit] at hok
    simp only [Bool.false_eq_true, if_false, ite_false, ite_true] at hok
    simp at hok
    repeat' split at hok
    all_goals
      first
        | exact Except.noConfusion hok
        | (injection hok with h; subst h; exact ⟨rfl, rfl, rfl⟩)
  · unfold editEventPost
    rw [hedit]
    simp

/-- Concrete instance of the dead-code frame rule: an edit of a Closed
event submitting a new title and new times would succeed with the original
title and times kept. -/
theorem editEventPost_closed_frame_witness :
    (⟨"T", "nd", TimeInput.valid ⟨2025, 0⟩, TimeInput.valid ⟨2025, 1⟩⟩ :
        EventUpdate).title = "T" ∧
    (⟨"T", "nd", TimeInput.valid ⟨2025, 0⟩, TimeInput.valid ⟨2025, 1⟩⟩ :
        EventUpdate).start_time = TimeInput.valid ⟨2025, 0⟩ ∧
    (⟨"T", "nd", TimeInput.valid ⟨2025, 0⟩, TimeInput.valid ⟨2025, 1⟩⟩ :
        EventUpdate).end_time = TimeInput.valid ⟨2025, 1⟩ :=
  (editEventPost_closed_frame
    ⟨1, "T", "D", TimeInput.valid ⟨2025, 0⟩, TimeInput.valid ⟨2025, 1⟩, 7⟩
    "New" "Other" "nd" (TimeInput.valid ⟨2025, 2⟩) (TimeInput.valid ⟨2025, 3⟩)
    TimeInput.absent TimeInput.absent ⟨2025, 5⟩ rfl).1
    ⟨"T", "nd", TimeInput.valid ⟨2025, 0⟩, TimeInput.valid ⟨2025, 1⟩⟩ rfl

/-- ASCII lowering, the effect of Python's `str.lower()` on the
candidate-name alphabet. -/
def asciiLower (c : Char) : Char :=
  if 'A' ≤ c ∧ c ≤ 'Z' then Char.ofNat (c.toNat + 32) else c

/-- Python's `str.lower()` on a whole string. -/
def lowerStr (s : String) : String :=
  String.mk (s.data.map asciiLower)

/-- Embeds `validate_name` (validators.py). -/
def validate_name (name : String) (field : String) : Option String :=
  if name = "" then some (field ++ " is required")
  else if (strip name).length < 2 then
    some (field ++ " must be at least 2 characters")
  else if (strip name).length > 45 then
    some (field ++ " must be less than 45 characters")
  else none

/-- Embeds `validate_candidate_name` (validators.py). -/
def validate_candidate_name (candidate_name : String) : Option String :=
  validate_name candidate_name "Candidate name"

/-- The duplicate scan of `createEventRoute` (eventsController.py): walk the
candidates keeping the lowercased names seen so far, reporting the first
case-insensitive repeat. -/
def firstDup (seen : List String) : List String → Option String
  | [] => none
  | c :: rest =>
      if seen.contains (lowerStr c) then
        some ("Duplicate candidate \"" ++ c ++
          "\" is not allowed. Each candidate must have a unique name.")
      else firstDup (lowerStr c :: seen) rest

/-- Embeds the validation chain of `createEventRoute`
(eventsController.py lines 110-200), including its `if/elif` structure:
the description check and the start/end/date checks live in one `elif`
chain, so when the title is valid and a non-empty description is given,
the date block (missing-date, past-start, end-before-start and the 10-year
window) is skipped entirely.  Returns the error flashed to the caller, or
`none` when the event is created. -/
def createEventValidate (title description : String)
    (start_time_local end_time_local : TimeInput)
    (candidates : List String) (now : DT) : Option String :=
  let valid_candidates :=
    (candidates.filter (fun c => strip c ≠ "")).map strip
  let err1 := validate_event_title title
  let err2 :=
    if err1 = none ∧ description ≠ "" then
      validate_event_description description
    else if start_time_local = TimeInput.absent then
      some "Please select a start date"
    else if end_time_local = TimeInput.absent then
      some "Please select an end date"
    else
      match parse_datetime start_time_local,
        parse_datetime end_time_local with
      | some sd, some ed =>
          let e1 :=
            if DT.ltb sd now then some "Start time cannot be in the past"
            else err1
          let e2 :=
            if e1 = none then
              if DT.leb ed sd then
                some "End time cannot be before or equal to start time"
              else none
            else e1
          if e2 = none then
            if sd.year > now.year + 10 ∨ ed.year > now.year + 10 then
              some "Event dates cannot be more than 10 years in the future"
            else none
          else e2
      | _, _ => some "Invalid date format"
  let err3 :=
    if err2 = none ∧ description ≠ "" ∧ description.length > 1000 then
      some "Event description is too long (maximum 1000 characters)"
    else err2
  if err3 ≠ none then err3
  else if valid_candidates.length < 2 then
    some "Please add at least 2 candidates"
  else
    match valid_candidates.findSome? validate_candidate_name with
    | some e => some e
    | none => firstDup [] valid_candidates

/-- C10: the 10-year sanity window is not enforced whenever a non-empty
description is submitted — the `elif` chain then routes validation through
the description check only and skips the whole date block, so an event
dated in the year 2100 passes validation (and is created); with an empty
description the same request is rejected with the 10-year error, as the
route's own comments say it always should be. -/
theorem createEvent_tenYear_check_skipped :
    createEventValidate "Event" "desc" (TimeInput.valid ⟨2100, 0⟩)
        (TimeInput.valid ⟨2100, 5⟩) ["Alpha", "Beta"] ⟨2025, 0⟩ = none ∧
    createEventValidate "Event" "" (TimeInput.valid ⟨2100, 0⟩)
        (TimeInput.valid ⟨2100, 5⟩) ["Alpha", "Beta"] ⟨2025, 0⟩ =
      some "Event dates cannot be more than 10 years in the future" := by
  constructor
  · rfl
  · rfl

/-- The attribute names defined on the `Events` model class and its
instances (eventsModels.py): the instance fields set in `__init__` plus
the methods of the class body.  Python attribute lookup on an `Events`
object resolves against exactly these; the class defines no
`__getattr__` and no alias, and nothing monkey-patches it. -/
def eventsAttributes : List String :=
  ["event_id", "title", "description", "start_time", "end_time",
   "created_byFK", "created_at", "status", "db",
   "createEvent", "editEvent", "deleteEvent", "getAllWithCreators",
   "getOne", "getRecommendations", "getUpcoming", "get_editable_fields",
   "isCreatedBy"]

/-- Python attribute lookup on an `Events` instance: a name not defined on
the instance or its class raises `AttributeError`. -/
def eventsGetattr (name : String) : Except String Unit :=
  if eventsAttributes.contains name then Except.ok ()
  else
    Except.error
      ("AttributeError: 'Events' object has no attribute '" ++ name ++ "'")

/-- Embeds the `editEventPost` route (eventsController.py) from its
editable-fields lookup on: line 694 runs
`editable = event.getEditableFields()`, outside any try block, so the
attribute lookup is performed before any of the validation and coercion
below it; only if it resolved would the continuation `editEventPost`
run. -/
def editEventPostRoute (event : EventRow) (ftitle fdescription : String)
    (fstart fend : TimeInput) (now : DT) : Except String EventUpdate :=
  match eventsGetattr "getEditableFields" with
  | Except.error m => Except.error m
  | Except.ok _ => editEventPost event ftitle fdescription fstart fend now

/-- C8: the edit route never reaches its validation/coercion logic — the
`Events` class defines `get_editable_fields` but line 694 looks up
`getEditableFields`, so every edit submission, for every event, form and
instant (Closed events included), raises `AttributeError` and no edit
ever succeeds or silently coerces anything.  The claim describes the
silent-coercion behaviour the code below line 694 would implement (see
`editEventPost_closed_frame`); the misspelt lookup makes it unreachable. -/
theorem editEventPost_always_attribute_error (event : EventRow)
    (ftitle fdescription : String) (fstart fend : TimeInput) (now : DT) :
    editEventPostRoute event ftitle fdescription fstart fend now =
      Except.error
        "AttributeError: 'Events' object has no attribute 'getEditableFields'"
    := rfl
